import Mathlib

/-!
Verification of the message-routing and RAG-resolution core of the
falla-ai-agent-router repository.

The Python sources `src/common_logic/business_router.py` and
`src/common_logic/rag_service.py` are shallowly embedded below.  Firestore
document values are modelled by the inductive type `Value` (null, bool, int,
string, list, dict); Python dict semantics (first-match lookup, in-place
replacement on key collision, insertion order preserved) are modelled on
association lists.  Numeric values are modelled as integers.  External
collaborators (the Firestore contact collection, the tenant document, the
Dialogflow agent) are passed in as explicit parameters.
-/

/-- A Firestore/JSON-style dynamic value, as manipulated by the Python code. -/
inductive Value where
  | vnull : Value
  | vbool (b : Bool) : Value
  | vint (n : Int) : Value
  | vstr (s : String) : Value
  | vlist (xs : List Value) : Value
  | vdict (xs : List (String × Value)) : Value

/-- Python truthiness (`bool(x)`) of a `Value`. -/
def truthy : Value → Bool
  | .vnull => false
  | .vbool b => b
  | .vint n => n ≠ 0
  | .vstr s => s ≠ ""
  | .vlist xs => ¬ xs.isEmpty
  | .vdict xs => ¬ xs.isEmpty

/-- Python `x or y` on values: `y` when `x` is falsy, else `x`. -/
def pyOr (a b : Value) : Value := if truthy a then a else b

/-- The whitespace characters stripped by Python `str.strip()` (ASCII range). -/
def pySpace (c : Char) : Bool :=
  c = ' ' ∨ c = '\t' ∨ c = '\n' ∨ c = '\r' ∨ c = '\x0b' ∨ c = '\x0c'

/-- Python `str.strip()` on a character list. -/
def pyStripChars (l : List Char) : List Char :=
  ((l.dropWhile pySpace).reverse.dropWhile pySpace).reverse

/-- Python `str.lower()` for ASCII characters. -/
def lowerChar (c : Char) : Char :=
  if 'A' ≤ c ∧ c ≤ 'Z' then Char.ofNat (c.toNat + 32) else c

/-- Python `str.lower()` on strings (ASCII range). -/
def lowerStr (s : String) : String := ⟨s.data.map lowerChar⟩

/-- Python dict lookup `d.get(k)` on a string-keyed association list:
first entry whose key equals `k`. -/
def lookupS (d : List (String × Value)) (k : String) : Option Value :=
  match d with
  | [] => none
  | (k0, v) :: rest => if k0 = k then some v else lookupS rest k

/-- Python dict lookup with default, `d.get(k, dflt)`. -/
def sgetD (d : List (String × Value)) (k : String) (dflt : Value) : Value :=
  (lookupS d k).getD dflt

/-- Python `d.get(k)` where a missing key yields `None`. -/
def sget (d : List (String × Value)) (k : String) : Value :=
  (lookupS d k).getD .vnull

/-- Python dict assignment `d[k] = v` on a string-keyed association list:
replaces the value of the first matching key in place, else appends. -/
def sinsert (d : List (String × Value)) (k : String) (v : Value) : List (String × Value) :=
  match d with
  | [] => [(k, v)]
  | (k0, v0) :: rest => if k0 = k then (k0, v) :: rest else (k0, v0) :: sinsert rest k v

/-- Builds a Python dict from a sequence of key/value pairs (a dict literal:
a later duplicate key overrides the value, the first occurrence keeps the slot). -/
def sfromList (ps : List (String × Value)) : List (String × Value) :=
  ps.foldl (fun d kv => sinsert d kv.1 kv.2) []

/-! ## business_router.py -/

/-- Embeds `_normalize_phone_number` (business_router.py:57): the source runs
`phone.lstrip('+').strip()`, i.e. first drops every leading `'+'`, then strips
surrounding whitespace. -/
def normalizePhone (s : String) : String :=
  ⟨pyStripChars (s.data.dropWhile (· = '+'))⟩

/-- Embeds `_to_bool` (business_router.py:70): tolerant coercion of a value to
a boolean.  `Value.vnull` models Python `None` (not a bool/number/string, so
the function falls through to `False`). -/
def to_bool : Value → Bool
  | .vbool b => b
  | .vint n => n ≠ 0
  | .vstr s => ["true", "1", "yes", "sim", "y", "on"].contains (lowerStr ⟨pyStripChars s.data⟩)
  | _ => false

/-- The 13-digit variant built at business_router.py:112-115: `"55" + ddd + "9" + number`
with `ddd = phone[2:4]` and `number = phone[4:]`. -/
def insertNinth (p : List Char) : List Char :=
  '5' :: '5' :: ((p.drop 2).take 2 ++ '9' :: p.drop 4)

/-- The 12-digit variant built at business_router.py:124-125:
`"55" + phone[2:4] + phone[5:]`. -/
def removeNinth (p : List Char) : List Char :=
  '5' :: '5' :: ((p.drop 2).take 2 ++ p.drop 5)

/-- The variation list built by `_generate_phone_variations`
(business_router.py:82-128) before deduplication. -/
def phoneVariationsRaw (p : List Char) : List (List Char) :=
  if p.take 2 = ['5', '5'] ∧ 4 ≤ p.length then
    if p.length = 12 then
      if (p.drop 4).length = 8 then [p, '+' :: p, insertNinth p, '+' :: insertNinth p]
      else [p, '+' :: p]
    else if p.length = 13 then
      if p[4]? = some '9' then [p, '+' :: p, removeNinth p, '+' :: removeNinth p]
      else [p, '+' :: p]
    else [p, '+' :: p]
  else [p, '+' :: p]

/-- The duplicate-removal loop at business_router.py:130-136: keeps the first
occurrence of each element, preserving order (`seen` is the set built so far). -/
def dedupSeen (seen : List (List Char)) : List (List Char) → List (List Char)
  | [] => []
  | x :: xs => if x ∈ seen then dedupSeen seen xs else x :: dedupSeen (x :: seen) xs

/-- Embeds `_generate_phone_variations` (business_router.py:82-138). -/
def generatePhoneVariations (phone : String) : List String :=
  (dedupSeen [] (phoneVariationsRaw phone.data)).map (fun l => ⟨l⟩)

/-- Outcome of one Firestore document probe in `_find_contact_by_phone`:
the document exists (with its fields), does not exist, or the lookup raised. -/
inductive Probe where
  | found (d : List (String × Value)) : Probe
  | missing : Probe
  | err : Probe

/-- The candidate loop of `_find_contact_by_phone` (business_router.py:170-196):
returns the first existing document together with the key that matched; a
non-existing document and a raised lookup (caught at line 189) both continue
with the next candidate. -/
def probeLoop (store : String → Probe) : List String → Option (List (String × Value) × String)
  | [] => none
  | v :: rest =>
    match store v with
    | .found d => some (d, v)
    | .missing => probeLoop store rest
    | .err => probeLoop store rest

/-- Embeds `_find_contact_by_phone` (business_router.py:141-196); `store` is
the per-tenant contact collection (`tenants/{tenant_id}/contacts`). -/
def findContactByPhone (store : String → Probe) (userId : String) :
    Option (List (String × Value) × String) :=
  probeLoop store (generatePhoneVariations (normalizePhone userId))

/-- FASE 4 of `execute_business_routing` (business_router.py:262-264) for a
string status: `if status and status.startswith("sdr_")` (the prefix test is
expressed on the character list). -/
def funnelId (s : String) : String :=
  if s ≠ "" ∧ "sdr_".data.isPrefixOf s.data then "core_sdr" else "core_bdr"

/-- FASE 4 on an arbitrary status value: a falsy value of any type skips the
`startswith` call and yields `core_bdr`; a truthy non-string raises
`AttributeError` (modelled as `none`, caught by the outer handler). -/
def funnelFromStatus : Value → Option String
  | .vstr s => some (funnelId s)
  | v => if truthy v then none else some "core_bdr"

/-- The `IGNORED_FIELDS` set of FASE 6 (business_router.py:320-323). -/
def IGNORED_FIELDS : List String :=
  ["core_active", "active", "enabled", "status", "is_active", "core_enabled", "playbook_active"]

/-- The FASE 6 extraction loop (business_router.py:326-334): every entry whose
lowercased key is not in `IGNORED_FIELDS` is kept under a `playbook_` prefix. -/
def extractPlaybookParams (cfg : List (String × Value)) : List (String × Value) :=
  cfg.filterMap (fun kv =>
    if IGNORED_FIELDS.contains (lowerStr kv.1) then none
    else some ("playbook_" ++ kv.1, kv.2))

/-- The FASE 5 activation check (business_router.py:305-306):
`_to_bool(playbook_config_to_use.get("status"))` — note the `.get` has no
default, so a missing `status` key yields `None` and coerces to `False`. -/
def playbookIsActive (cfg : List (String × Value)) : Bool :=
  to_bool ((lookupS cfg "status").getD .vnull)

def hexDigit (n : Nat) : Char :=
  if n < 10 then Char.ofNat (48 + n) else Char.ofNat (87 + n)

def hex4 (n : Nat) : List Char :=
  [hexDigit (n / 4096 % 16), hexDigit (n / 256 % 16), hexDigit (n / 16 % 16), hexDigit (n % 16)]

/-- Escaping of one character by Python `json.dumps` (ensure_ascii=False). -/
def jsonEscapeChar (c : Char) : List Char :=
  if c = '"' then ['\\', '"']
  else if c = '\\' then ['\\', '\\']
  else if c = '\n' then ['\\', 'n']
  else if c = '\t' then ['\\', 't']
  else if c = '\r' then ['\\', 'r']
  else if c = '\x08' then ['\\', 'b']
  else if c = '\x0c' then ['\\', 'f']
  else if c.toNat < 32 then '\\' :: 'u' :: hex4 c.toNat
  else [c]

def jsonEscape (s : String) : String :=
  ⟨s.data.flatMap jsonEscapeChar⟩

mutual

/-- Python `json.dumps(value, ensure_ascii=False)` with the default separators
`", "` and `": "`, as called at business_router.py:391. -/
def jsonDumps : Value → String
  | .vnull => "null"
  | .vbool b => if b then "true" else "false"
  | .vint n => toString n
  | .vstr s => "\"" ++ jsonEscape s ++ "\""
  | .vlist xs => "[" ++ String.intercalate ", " (jsonDumpsList xs) ++ "]"
  | .vdict xs => "\x7b" ++ String.intercalate ", " (jsonDumpsPairs xs) ++ "\x7d"

def jsonDumpsList : List Value → List String
  | [] => []
  | v :: rest => jsonDumps v :: jsonDumpsList rest

def jsonDumpsPairs : List (String × Value) → List String
  | [] => []
  | kv :: rest => ("\"" ++ jsonEscape kv.1 ++ "\": " ++ jsonDumps kv.2) :: jsonDumpsPairs rest

end

/-- FASE 12 of `execute_business_routing` (business_router.py:388-408): how one
session-parameter value is converted for the agent's string-only format, or
dropped (`none`).  The source tests `isinstance(value, (dict, list))`, then
`isinstance(value, (int, float))`, then `isinstance(value, bool)`: since a
Python `bool` is a subclass of `int`, booleans are taken by the numeric branch
and rendered by `str(value)` as `"True"`/`"False"`; the later lowercase boolean
branch is unreachable. -/
def marshalValue : Value → Option String
  | .vdict d => some (jsonDumps (.vdict d))
  | .vlist l => some (jsonDumps (.vlist l))
  | .vbool b => some (if b then "True" else "False")
  | .vint n => some (toString n)
  | .vnull => none
  | .vstr s => some s

/-- The external collaborators of `execute_business_routing`: the per-tenant
contact collection, the `tenants/{tenant_id}` document, and whether
`DIALOGFLOW_AGENT_ID` is configured. -/
structure RoutingEnv where
  contactStore : String → String → Probe
  tenantDoc : String → Option (List (String × Value))
  agentConfigured : Bool

/-- Observable outcome of `execute_business_routing`: either it returned before
FASE 15 without calling the conversational agent, or it reached the
`detect_intent` call with the given marshalled string parameters. -/
inductive RoutingOutcome where
  | noAgentCall : RoutingOutcome
  | agentCall (structParams : List (String × String)) : RoutingOutcome

/-- Embeds `execute_business_routing` (business_router.py:199-459) up to the
agent call.  Every early `return None` (contact not found, tenant missing,
missing/inactive/malformed playbook configuration, missing agent id) and every
exception caught by the outer handler yields `noAgentCall`. -/
def executeBusinessRouting (env : RoutingEnv) (tenantId userId channelId : String) :
    RoutingOutcome :=
  match findContactByPhone (env.contactStore tenantId) userId with
  | none => .noAgentCall
  | some (contactData, _) =>
    let status := sgetD contactData "status" (.vstr "bdr_inbound")
    let score := sgetD contactData "score" (.vint 0)
    let contextScore := sgetD contactData "context_score" (.vstr "Lead inbound (BDR Padrão)")
    let nameV := sgetD contactData "name" (.vstr "")
    let sourceList := sgetD contactData "source_list" (.vstr "")
    match funnelFromStatus status with
    | none => .noAgentCall
    | some funnel =>
      match env.tenantDoc tenantId with
      | none => .noAgentCall
      | some tenantData =>
        let allConfigsV := sgetD tenantData "playbook_configs" (.vdict [])
        if truthy allConfigsV then
          match allConfigsV with
          | .vdict allConfigs =>
            match lookupS allConfigs funnel with
            | none => .noAgentCall
            | some .vnull => .noAgentCall
            | some (.vdict cfg) =>
              if playbookIsActive cfg then
                let sessionParams := sfromList
                  ([("tenant_id", .vstr tenantId), ("channel_id", .vstr channelId),
                    ("user_id", .vstr userId), ("playbook_name", .vstr funnel)]
                   ++ extractPlaybookParams cfg
                   ++ [("status", status), ("score", score), ("context_score", contextScore),
                       ("name", nameV), ("source_list", sourceList)])
                if env.agentConfigured then
                  .agentCall (sessionParams.filterMap
                    (fun kv => (marshalValue kv.2).map (fun s => (kv.1, s))))
                else .noAgentCall
              else .noAgentCall
            | some _ => .noAgentCall
          | _ => .noAgentCall
        else .noAgentCall

/-! ## rag_service.py -/

/-- Embeds `RagSearchService._is_truthy` (rag_service.py:206-214); the logic is
the same tolerant coercion as `_to_bool`, with the string set written in the
source order of rag_service.py. -/
def ragIsTruthy : Value → Bool
  | .vbool b => b
  | .vint n => n ≠ 0
  | .vstr s => ["true", "1", "yes", "y", "on", "sim"].contains (lowerStr ⟨pyStripChars s.data⟩)
  | _ => false

/-- Embeds the `RagStoreTarget` dataclass (rag_service.py:29-36).  The fields
are dynamic values: the source copies whatever the tenant document holds. -/
structure RagStoreTarget where
  data_store_id : Value
  location : Value
  project_id : Value
  collection_id : Value

/-- Python `==` on values, as used for dict keys: booleans compare equal to
the corresponding integers (`True == 1`); lists and dicts are unhashable and
never occur as dict keys in the embedded code, so structural equality is used
for them. -/
def pyEq : Value → Value → Bool
  | .vnull, .vnull => true
  | .vbool a, .vbool b => a = b
  | .vbool a, .vint n => (if a then (1 : Int) else 0) = n
  | .vint n, .vbool a => n = (if a then (1 : Int) else 0)
  | .vint a, .vint b => a = b
  | .vstr a, .vstr b => a = b
  | .vlist a, .vlist b => jsonDumps (.vlist a) = jsonDumps (.vlist b)
  | .vdict a, .vdict b => jsonDumps (.vdict a) = jsonDumps (.vdict b)
  | _, _ => false

/-- Whether a value can be a Python dict key (`allowed_targets[...] = ...`
raises `TypeError` on an unhashable key). -/
def hashable : Value → Bool
  | .vlist _ => false
  | .vdict _ => false
  | _ => true

/-- Python dict lookup `d.get(k)` on a value-keyed association list. -/
def dget (d : List (Value × RagStoreTarget)) (k : Value) : Option RagStoreTarget :=
  match d with
  | [] => none
  | (k0, v) :: rest => if pyEq k0 k then some v else dget rest k

/-- Python dict assignment `d[k] = v` on a value-keyed association list. -/
def dinsert (d : List (Value × RagStoreTarget)) (k : Value) (v : RagStoreTarget) :
    List (Value × RagStoreTarget) :=
  match d with
  | [] => [(k, v)]
  | (k0, v0) :: rest => if pyEq k0 k then (k0, v) :: rest else (k0, v0) :: dinsert rest k v

/-- Python `d.update(ps)`: insert every pair of `ps` in order. -/
def dupdate (d : List (Value × RagStoreTarget)) (ps : List (Value × RagStoreTarget)) :
    List (Value × RagStoreTarget) :=
  ps.foldl (fun acc kv => dinsert acc kv.1 kv.2) d

/-- The store id read by `_extract_targets_from_playbooks` (rag_service.py:223-225):
`playbook_cfg.get("rag_datastore_id") or playbook_cfg.get("rag_id")`. -/
def pbDsid (cfg : List (String × Value)) : Value :=
  pyOr (sget cfg "rag_datastore_id") (sget cfg "rag_id")

/-- The target built by `_extract_targets_from_playbooks` (rag_service.py:228-255)
for one playbook entry, given the three service defaults. -/
def mkPlaybookTarget (dl dp dc : Value) (cfg : List (String × Value)) : RagStoreTarget :=
  { data_store_id := pbDsid cfg
    location := pyOr (sget cfg "rag_location") (pyOr (sget cfg "rag_region") dl)
    project_id := pyOr (sget cfg "rag_project_id") dp
    collection_id := pyOr (sget cfg "rag_collection_id") dc }

/-- The store id read by `_extract_targets_from_rag_configs` (rag_service.py:265-267):
`rag_cfg.get("data_store_id") or rag_cfg.get("rag_datastore_id")`. -/
def rcDsid (cfg : List (String × Value)) : Value :=
  pyOr (sget cfg "data_store_id") (sget cfg "rag_datastore_id")

/-- The target built by `_extract_targets_from_rag_configs` (rag_service.py:270-299)
for one alias entry. -/
def mkRagTarget (dl dp dc : Value) (cfg : List (String × Value)) : RagStoreTarget :=
  { data_store_id := rcDsid cfg
    location := pyOr (sget cfg "location") (pyOr (sget cfg "region") dl)
    project_id := pyOr (sget cfg "project_id") (pyOr (sget cfg "rag_project_id") dp)
    collection_id := pyOr (sget cfg "collection_id") (pyOr (sget cfg "rag_collection_id") dc) }

/-- The loop of `_extract_targets_from_playbooks` (rag_service.py:216-256):
skips non-dict entries and entries with a falsy store id, and stores the
target under the playbook name (`targets[playbook_name] = ...`). -/
def extractPB (dl dp dc : Value) (acc : List (Value × RagStoreTarget)) :
    List (String × Value) → List (Value × RagStoreTarget)
  | [] => acc
  | (pbname, v) :: rest =>
    match v with
    | .vdict cfg =>
      if truthy (pbDsid cfg) then
        extractPB dl dp dc (dinsert acc (.vstr pbname) (mkPlaybookTarget dl dp dc cfg)) rest
      else extractPB dl dp dc acc rest
    | _ => extractPB dl dp dc acc rest

/-- Embeds `_extract_targets_from_playbooks` (rag_service.py:216-256). -/
def extractTargetsFromPlaybooks (dl dp dc : Value) (cfgs : List (String × Value)) :
    List (Value × RagStoreTarget) :=
  extractPB dl dp dc [] cfgs

/-- The loop of `_extract_targets_from_rag_configs` (rag_service.py:258-300). -/
def extractRC (dl dp dc : Value) (acc : List (Value × RagStoreTarget)) :
    List (String × Value) → List (Value × RagStoreTarget)
  | [] => acc
  | (aliasKey, v) :: rest =>
    match v with
    | .vdict cfg =>
      if truthy (rcDsid cfg) then
        extractRC dl dp dc (dinsert acc (.vstr aliasKey) (mkRagTarget dl dp dc cfg)) rest
      else extractRC dl dp dc acc rest
    | _ => extractRC dl dp dc acc rest

/-- Embeds `_extract_targets_from_rag_configs` (rag_service.py:258-300). -/
def extractTargetsFromRagConfigs (dl dp dc : Value) (cfgs : List (String × Value)) :
    List (Value × RagStoreTarget) :=
  extractRC dl dp dc [] cfgs

/-- The loop at rag_service.py:336-337 adding every extracted target under its
raw store id (`allowed_targets[target.data_store_id] = target`); an unhashable
id raises `TypeError`, modelled as `none`. -/
def storeIdIndexed (d : List (Value × RagStoreTarget)) :
    List RagStoreTarget → Option (List (Value × RagStoreTarget))
  | [] => some d
  | t :: rest =>
    if hashable t.data_store_id then storeIdIndexed (dinsert d t.data_store_id t) rest
    else none

/-- `tenant_data.get(k, {})` followed by iteration (`.items()`): an absent
field yields the empty dict, a dict field yields its entries, and any other
stored value raises (`AttributeError`), modelled as `none`. -/
def fieldOrEmpty (td : List (String × Value)) (k : String) :
    Option (List (String × Value)) :=
  match lookupS td k with
  | none => some []
  | some (.vdict d) => some d
  | some _ => none

/-- Error taxonomy of `resolve_store_target`: the three `RagServiceError`
subclasses raised by rag_service.py, plus `pyError` for exceptions the source
does not raise deliberately (`AttributeError`/`TypeError` on malformed
tenant data). -/
inductive RagErr where
  | notFound : RagErr
  | configurationError : RagErr
  | unauthorized : RagErr
  | pyError : RagErr

/-- The lookup tables `resolve_store_target` builds from the tenant document
(rag_service.py:320-337) before examining the selectors. -/
structure ResolveCtx where
  pcfgs : List (String × Value)
  rcfgs : List (String × Value)
  pt : List (Value × RagStoreTarget)
  rt : List (Value × RagStoreTarget)
  allowed : List (Value × RagStoreTarget)

/-- Builds the playbook table, the alias table and the unified authorization
table of rag_service.py:320-337 from the tenant document. -/
def buildCtx (dl dp dc : Value) (td : List (String × Value)) : Option ResolveCtx :=
  match fieldOrEmpty td "playbook_configs", fieldOrEmpty td "rag_configs" with
  | some pcfgs, some rcfgs =>
    match storeIdIndexed
        (dupdate (dupdate [] (extractTargetsFromPlaybooks dl dp dc pcfgs))
          (extractTargetsFromRagConfigs dl dp dc rcfgs))
        ((extractTargetsFromPlaybooks dl dp dc pcfgs).map Prod.snd ++
          (extractTargetsFromRagConfigs dl dp dc rcfgs).map Prod.snd) with
    | some allowed => some ⟨pcfgs, rcfgs, extractTargetsFromPlaybooks dl dp dc pcfgs,
        extractTargetsFromRagConfigs dl dp dc rcfgs, allowed⟩
    | none => none
  | _, _ => none

/-- Python truthiness of an `Optional[str]` selector (`if explicit_data_store_id:`). -/
def given : Option String → Bool
  | none => false
  | some s => s ≠ ""

/-- The string inside a selector (only used on branches where `given` holds). -/
def oget : Option String → String
  | none => ""
  | some s => s

/-- The activation check of the playbook branch (rag_service.py:375):
`self._is_truthy(playbook_cfg.get("status", True))`. -/
def pbStatusActive (cfg : List (String × Value)) : Bool :=
  ragIsTruthy ((lookupS cfg "status").getD (.vbool true))

/-- The selector precedence of `resolve_store_target` (rag_service.py:339-424),
run against the pre-built tables. -/
def resolveWithCtx (ctx : ResolveCtx) (playbookName ragIdentifier explicitId : Option String) :
    Except RagErr RagStoreTarget :=
  if given explicitId then
    match dget ctx.allowed (.vstr (oget explicitId)) with
    | some t => .ok t
    | none => .error .unauthorized
  else if given playbookName then
    match dget ctx.pt (.vstr (oget playbookName)) with
    | none => .error .notFound
    | some t =>
      match lookupS ctx.pcfgs (oget playbookName) with
      | none => .ok t
      | some cfgv =>
        if truthy cfgv then
          match cfgv with
          | .vdict cfg => if pbStatusActive cfg then .ok t else .error .configurationError
          | _ => .error .pyError
        else .ok t
  else if given ragIdentifier then
    match dget ctx.allowed (.vstr (oget ragIdentifier)) with
    | some t => .ok t
    | none => .error .unauthorized
  else .error .configurationError

/-- Embeds `resolve_store_target` (rag_service.py:302-424).  `tenantDoc` is the
`tenants/{tenant_id}` document (`none` when it does not exist); `dl`, `dp`,
`dc` are the service's default location, project and collection. -/
def resolveStoreTarget (dl dp dc : Value) (tenantDoc : Option (List (String × Value)))
    (playbookName ragIdentifier explicitId : Option String) :
    Except RagErr RagStoreTarget :=
  match tenantDoc with
  | none => .error .notFound
  | some td =>
    match buildCtx dl dp dc td with
    | none => .error .pyError
    | some ctx => resolveWithCtx ctx playbookName ragIdentifier explicitId

/-! ## Helper lemmas -/

theorem string_mk_data (s : String) : String.mk s.data = s := rfl

theorem string_append_data (a b : String) : (a ++ b).data = a.data ++ b.data :=
  String.data_append a b

theorem string_append_left_cancel (a b c : String) (h : a ++ b = a ++ c) : b = c := by
  have hd : a.data ++ b.data = a.data ++ c.data := by
    have := congrArg String.data h
    simpa [string_append_data] using this
  exact String.ext (List.append_cancel_left hd)

theorem lookupS_mem (d : List (String × Value)) (k : String) (v : Value)
    (h : lookupS d k = some v) : (k, v) ∈ d := by
  induction d with
  | nil => simp [lookupS] at h
  | cons kv rest ih =>
    obtain ⟨k0, v0⟩ := kv
    by_cases hk : k0 = k
    · subst hk
      simp [lookupS] at h
      simp [h]
    · simp [lookupS, hk] at h
      exact List.mem_cons_of_mem _ (ih h)

/-! ## Claim theorems -/

/-- Claim C9 (confirmed): funnel derivation is a pure function of the contact
status string; it returns "core_sdr" exactly when the status is non-empty and
starts with "sdr_", and "core_bdr" otherwise (including for the empty string). -/
theorem c9_funnel_derivation (s : String) :
    (funnelId s = "core_sdr" ↔ (s ≠ "" ∧ "sdr_".data.isPrefixOf s.data)) ∧
    ((s = "" ∨ ¬ "sdr_".data.isPrefixOf s.data) → funnelId s = "core_bdr") := by
  constructor
  · unfold funnelId
    by_cases h : s ≠ "" ∧ "sdr_".data.isPrefixOf s.data <;> simp [h]
  · intro h
    unfold funnelId
    rcases h with h | h <;> simp [h]

theorem c9_funnel_derivation_witness :
    funnelId "sdr_active" = "core_sdr" ∧ funnelId "bdr_inbound" = "core_bdr" ∧
    funnelId "" = "core_bdr" :=
  ⟨(c9_funnel_derivation "sdr_active").1.mpr (by constructor <;> decide),
   (c9_funnel_derivation "bdr_inbound").2 (Or.inr (by decide)),
   (c9_funnel_derivation "").2 (Or.inl rfl)⟩

/-- Claim C1, counterexample: a playbook entry with no status key is reported
inactive by the FASE 5 activation check, not active as the claim states
(`playbook_config_to_use.get("status")` has no default, and
`_to_bool(None)` is `False`). -/
theorem c1_absent_status_inactive :
    lookupS [("rag_id", Value.vstr "x")] "status" = none ∧
    playbookIsActive [("rag_id", Value.vstr "x")] = false := ⟨rfl, rfl⟩

/-- Claim C1 (corrected): the activation check reads the entry's status field
and coerces it by the tolerant rule — booleans pass through, numbers are
active iff non-zero, strings are active iff their trimmed lowercase form is in
the fixed set, every other value is inactive — but an entry with an absent
status field is reported inactive (the `.get` has no default and `None`
coerces to `False`), not active. -/
theorem c1_activation_coercion (cfg : List (String × Value)) :
    (lookupS cfg "status" = none → playbookIsActive cfg = false) ∧
    (∀ b, lookupS cfg "status" = some (.vbool b) → playbookIsActive cfg = b) ∧
    (∀ n, lookupS cfg "status" = some (.vint n) →
      (playbookIsActive cfg = true ↔ n ≠ 0)) ∧
    (∀ s, lookupS cfg "status" = some (.vstr s) →
      (playbookIsActive cfg = true ↔
        lowerStr ⟨pyStripChars s.data⟩ ∈ ["true", "1", "yes", "sim", "y", "on"])) ∧
    (lookupS cfg "status" = some .vnull → playbookIsActive cfg = false) ∧
    (∀ xs, lookupS cfg "status" = some (.vlist xs) → playbookIsActive cfg = false) ∧
    (∀ xs, lookupS cfg "status" = some (.vdict xs) → playbookIsActive cfg = false) := by
  refine ⟨?_, ?_, ?_, ?_, ?_, ?_, ?_⟩
  · intro h; simp [playbookIsActive, h, to_bool]
  · intro b h; simp [playbookIsActive, h, to_bool]
  · intro n h; simp [playbookIsActive, h, to_bool]
  · intro s h
    simp only [playbookIsActive, h, Option.getD_some, to_bool]
    simp
  · intro h; simp [playbookIsActive, h, to_bool]
  · intro xs h; simp [playbookIsActive, h, to_bool]
  · intro xs h; simp [playbookIsActive, h, to_bool]

theorem c1_activation_coercion_witness :
    playbookIsActive [("status", Value.vstr " Sim ")] = true :=
  (c1_activation_coercion [("status", Value.vstr " Sim ")]).2.2.2.1 " Sim " rfl |>.mpr
    (by decide)

/-- Claim C2, evidence of the bug: a boolean session-parameter value is sent
as the capitalized string "True"/"False", not the lowercase form the spec
requires, because the source tests `isinstance(value, (int, float))` before
`isinstance(value, bool)` and Python booleans are integers, so `str(True)`
is taken and the lowercase branch is dead code. -/
theorem c2_bool_marshalled_capitalized :
    marshalValue (.vbool true) = some "True" ∧
    marshalValue (.vbool false) = some "False" ∧
    ("True" : String) ≠ "true" := ⟨rfl, rfl, by decide⟩

/-- Claim C7, counterexample: normalization is not idempotent.  The source runs
`lstrip('+')` before `strip()`, so for the input " +55" the first pass only
strips the whitespace and leaves a leading '+', and a second pass strips that
'+' as well — contradicting the function's own docstring, which promises a
result without '+'. -/
theorem c7_normalize_not_idempotent :
    normalizePhone " +55" = "+55" ∧
    normalizePhone (normalizePhone " +55") = "55" ∧
    normalizePhone (normalizePhone " +55") ≠ normalizePhone " +55" :=
  ⟨rfl, rfl, by decide⟩

/-- Claim C8 (confirmed): the extracted payload contains exactly the pairs
("playbook_" ++ k, v) for the entries (k, v) of the playbook entry whose
lowercased key is not in the ignore set; key case after the prefix is
preserved, values are unchanged, and no control field is ever forwarded. -/
theorem c8_field_extraction (cfg : List (String × Value)) :
    (∀ pk v, (pk, v) ∈ extractPlaybookParams cfg ↔
      ∃ k, pk = "playbook_" ++ k ∧ (k, v) ∈ cfg ∧ lowerStr k ∉ IGNORED_FIELDS) ∧
    (∀ c ∈ IGNORED_FIELDS, ∀ v, ("playbook_" ++ c, v) ∉ extractPlaybookParams cfg) := by
  have hmem : ∀ pk v, (pk, v) ∈ extractPlaybookParams cfg ↔
      ∃ k, pk = "playbook_" ++ k ∧ (k, v) ∈ cfg ∧ lowerStr k ∉ IGNORED_FIELDS := by
    intro pk v
    unfold extractPlaybookParams
    rw [List.mem_filterMap]
    constructor
    · rintro ⟨⟨k, w⟩, hmem, hf⟩
      by_cases hig : IGNORED_FIELDS.contains (lowerStr k) = true
      · rw [if_pos hig] at hf
        exact absurd hf (by simp)
      · rw [if_neg hig] at hf
        have hpair := Option.some.inj hf
        have h1 : "playbook_" ++ k = pk := congrArg Prod.fst hpair
        have h2 : w = v := congrArg Prod.snd hpair
        refine ⟨k, h1.symm, by rw [← h2]; exact hmem, ?_⟩
        simpa using hig
    · rintro ⟨k, hpk, hkv, hig⟩
      refine ⟨(k, v), hkv, ?_⟩
      have hnc : ¬ IGNORED_FIELDS.contains (lowerStr k) = true := by simpa using hig
      rw [if_neg hnc, hpk]
  refine ⟨hmem, ?_⟩
  intro c hc v hcontra
  obtain ⟨k, hpk, _, hig⟩ := (hmem _ v).mp hcontra
  have hkc : c = k := string_append_left_cancel "playbook_" c k hpk
  subst hkc
  apply hig
  fin_cases hc <;> decide

theorem c8_field_extraction_witness :
    ("playbook_Tone", Value.vstr "friendly") ∈
      extractPlaybookParams [("status", Value.vbool true), ("Tone", Value.vstr "friendly")] :=
  ((c8_field_extraction [("status", Value.vbool true), ("Tone", Value.vstr "friendly")]).1
    "playbook_Tone" (Value.vstr "friendly")).mpr
    ⟨"Tone", rfl, List.mem_cons_of_mem _ (List.mem_cons_self _ _), by decide⟩

theorem listne_len (a b : List Char) (h : ¬ a.length = b.length) : a ≠ b :=
  fun he => h (congrArg List.length he)

theorem listne_head (a b : List Char) (h : ¬ a.head? = b.head?) : a ≠ b :=
  fun he => h (congrArg List.head? he)

theorem mkPlusL (l : List Char) : String.mk ('+' :: l) = "+" ++ String.mk l :=
  String.ext (by simp [string_append_data])

theorem dedupSeen_eq_self (seen : List (List Char)) (l : List (List Char))
    (hl : l.Nodup) (hs : ∀ x ∈ l, x ∉ seen) : dedupSeen seen l = l := by
  induction l generalizing seen with
  | nil => rfl
  | cons x xs ih =>
    have hx : x ∉ seen := hs x (List.mem_cons_self x xs)
    rw [dedupSeen, if_neg hx]
    congr 1
    refine ih _ (List.Nodup.of_cons hl) ?_
    intro y hy hmem
    rcases List.mem_cons.mp hmem with h | h
    · exact (List.nodup_cons.mp hl).1 (h ▸ hy)
    · exact hs y (List.mem_cons_of_mem _ hy) h

theorem insertNinth_eq (d : List Char) (h : d.take 2 = ['5', '5']) :
    insertNinth d = d.take 4 ++ '9' :: d.drop 4 := by
  have ht : d.take 4 = d.take 2 ++ (d.drop 2).take 2 := List.take_add d 2 2
  rw [insertNinth, ht, h]
  simp

theorem removeNinth_eq (d : List Char) (h : d.take 2 = ['5', '5']) :
    removeNinth d = d.take 4 ++ d.drop 5 := by
  have ht : d.take 4 = d.take 2 ++ (d.drop 2).take 2 := List.take_add d 2 2
  rw [removeNinth, ht, h]
  simp

theorem head_of_take55 (d : List Char) (h : d.take 2 = ['5', '5']) :
    d.head? = some '5' := by
  conv_lhs => rw [← List.take_append_drop 2 d, h]
  rfl

/-- Claim C6 (corrected): the case split of `_generate_phone_variations` is on
the character length and the "55" prefix only, not on the input being made of
digits.  For every length-12 input starting with "55" (digits or not) the
output is [p, "+"+p, q, "+"+q] with q the input with '9' inserted at index 4;
for every length-13 input starting with "55" with '9' at index 4 the output is
[p, "+"+p, r, "+"+r] with r the input with that character removed; for every
other input the output is exactly [p, "+"+p]; the output never contains
duplicates and preserves first-seen order. -/
theorem c6_variation_shapes (p : String) :
    (p.data.length = 12 ∧ p.data.take 2 = ['5', '5'] →
      generatePhoneVariations p =
        [p, "+" ++ p, String.mk (p.data.take 4 ++ '9' :: p.data.drop 4),
         "+" ++ String.mk (p.data.take 4 ++ '9' :: p.data.drop 4)] ∧
      (p.data.take 4 ++ '9' :: p.data.drop 4).length = 13) ∧
    (p.data.length = 13 ∧ p.data.take 2 = ['5', '5'] ∧ p.data[4]? = some '9' →
      generatePhoneVariations p =
        [p, "+" ++ p, String.mk (p.data.take 4 ++ p.data.drop 5),
         "+" ++ String.mk (p.data.take 4 ++ p.data.drop 5)] ∧
      (p.data.take 4 ++ p.data.drop 5).length = 12) ∧
    (¬(p.data.length = 12 ∧ p.data.take 2 = ['5', '5']) →
     ¬(p.data.length = 13 ∧ p.data.take 2 = ['5', '5'] ∧ p.data[4]? = some '9') →
      generatePhoneVariations p = [p, "+" ++ p]) ∧
    (generatePhoneVariations p).Nodup := by
  have hinj : Function.Injective String.mk := fun a b h => by injection h
  by_cases hA : p.data.length = 12 ∧ p.data.take 2 = ['5', '5']
  · obtain ⟨h12, h55⟩ := hA
    have hraw : phoneVariationsRaw p.data =
        [p.data, '+' :: p.data, insertNinth p.data, '+' :: insertNinth p.data] := by
      unfold phoneVariationsRaw
      rw [if_pos ⟨h55, by omega⟩, if_pos h12, if_pos (by rw [List.length_drop]; omega)]
    have hw13 : (insertNinth p.data).length = 13 := by
      simp only [insertNinth, List.length_cons, List.length_append, List.length_take,
        List.length_drop]
      omega
    have hwhead : (insertNinth p.data).head? = some '5' := rfl
    have n12 : p.data ≠ '+' :: p.data :=
      listne_len _ _ (by simp only [List.length_cons]; omega)
    have n13 : p.data ≠ insertNinth p.data :=
      listne_len _ _ (by rw [hw13, h12]; omega)
    have n14 : p.data ≠ '+' :: insertNinth p.data :=
      listne_len _ _ (by simp only [List.length_cons]; rw [hw13, h12]; omega)
    have n23 : ('+' :: p.data) ≠ insertNinth p.data :=
      listne_head _ _ (by simp only [List.head?_cons, hwhead]; decide)
    have n24 : ('+' :: p.data) ≠ '+' :: insertNinth p.data := by
      intro he
      exact n13 (by injection he)
    have n34 : insertNinth p.data ≠ '+' :: insertNinth p.data :=
      listne_len _ _ (by simp only [List.length_cons]; omega)
    have hnd : [p.data, '+' :: p.data, insertNinth p.data,
        '+' :: insertNinth p.data].Nodup := by
      simp [List.nodup_cons, List.mem_cons, n12, n13, n14, n23, n24, n34]
    have hgen0 : generatePhoneVariations p = List.map String.mk
        [p.data, '+' :: p.data, insertNinth p.data, '+' :: insertNinth p.data] := by
      unfold generatePhoneVariations
      rw [hraw, dedupSeen_eq_self _ _ hnd (by simp)]
    have hgen : generatePhoneVariations p =
        [p, "+" ++ p, String.mk (insertNinth p.data),
         "+" ++ String.mk (insertNinth p.data)] := by
      rw [hgen0]
      simp only [List.map]
      rw [mkPlusL, mkPlusL, string_mk_data]
    have hlen : (p.data.take 4 ++ '9' :: p.data.drop 4).length = 13 := by
      simp only [List.length_append, List.length_cons, List.length_take, List.length_drop]
      omega
    refine ⟨fun _ => ⟨by rw [hgen, insertNinth_eq _ h55], hlen⟩,
      fun hB => absurd h12 (by omega), fun hc _ => absurd ⟨h12, h55⟩ hc, ?_⟩
    rw [hgen0]
    exact List.Nodup.map hinj hnd
  · by_cases hB : p.data.length = 13 ∧ p.data.take 2 = ['5', '5'] ∧ p.data[4]? = some '9'
    · obtain ⟨h13, h55, h9⟩ := hB
      have hraw : phoneVariationsRaw p.data =
          [p.data, '+' :: p.data, removeNinth p.data, '+' :: removeNinth p.data] := by
        unfold phoneVariationsRaw
        rw [if_pos ⟨h55, by omega⟩, if_neg (by omega), if_pos h13, if_pos h9]
      have hw12 : (removeNinth p.data).length = 12 := by
        simp only [removeNinth, List.length_cons, List.length_append, List.length_take,
          List.length_drop]
        omega
      have hphead : p.data.head? = some '5' := head_of_take55 _ h55
      have n12 : p.data ≠ '+' :: p.data :=
        listne_len _ _ (by simp only [List.length_cons]; omega)
      have n13 : p.data ≠ removeNinth p.data :=
        listne_len _ _ (by rw [hw12, h13]; omega)
      have n14 : p.data ≠ '+' :: removeNinth p.data :=
        listne_head _ _ (by simp only [List.head?_cons, hphead]; decide)
      have n23 : ('+' :: p.data) ≠ removeNinth p.data :=
        listne_len _ _ (by simp only [List.length_cons]; rw [hw12, h13]; omega)
      have n24 : ('+' :: p.data) ≠ '+' :: removeNinth p.data := by
        intro he
        exact n13 (by injection he)
      have n34 : removeNinth p.data ≠ '+' :: removeNinth p.data :=
        listne_len _ _ (by simp only [List.length_cons]; omega)
      have hnd : [p.data, '+' :: p.data, removeNinth p.data,
          '+' :: removeNinth p.data].Nodup := by
        simp [List.nodup_cons, List.mem_cons, n12, n13, n14, n23, n24, n34]
      have hgen0 : generatePhoneVariations p = List.map String.mk
          [p.data, '+' :: p.data, removeNinth p.data, '+' :: removeNinth p.data] := by
        unfold generatePhoneVariations
        rw [hraw, dedupSeen_eq_self _ _ hnd (by simp)]
      have hgen : generatePhoneVariations p =
          [p, "+" ++ p, String.mk (removeNinth p.data),
           "+" ++ String.mk (removeNinth p.data)] := by
        rw [hgen0]
        simp only [List.map]
        rw [mkPlusL, mkPlusL, string_mk_data]
      have hlen : (p.data.take 4 ++ p.data.drop 5).length = 12 := by
        simp only [List.length_append, List.length_take, List.length_drop]
        omega
      refine ⟨fun hA2 => absurd h13 (by omega),
        fun _ => ⟨by rw [hgen, removeNinth_eq _ h55], hlen⟩,
        fun _ hc => absurd ⟨h13, h55, h9⟩ hc, ?_⟩
      rw [hgen0]
      exact List.Nodup.map hinj hnd
    · have hraw : phoneVariationsRaw p.data = [p.data, '+' :: p.data] := by
        unfold phoneVariationsRaw
        by_cases h0 : p.data.take 2 = ['5', '5'] ∧ 4 ≤ p.data.length
        · rw [if_pos h0]
          have h12f : ¬ p.data.length = 12 := fun h => hA ⟨h, h0.1⟩
          rw [if_neg h12f]
          by_cases h13 : p.data.length = 13
          · rw [if_pos h13]
            have h9f : ¬ p.data[4]? = some '9' := fun h9 => hB ⟨h13, h0.1, h9⟩
            rw [if_neg h9f]
          · rw [if_neg h13]
        · rw [if_neg h0]
      have n12 : p.data ≠ '+' :: p.data :=
        listne_len _ _ (by simp only [List.length_cons]; omega)
      have hnd : [p.data, '+' :: p.data].Nodup := by
        simp [List.nodup_cons, n12]
      have hgen0 : generatePhoneVariations p = List.map String.mk
          [p.data, '+' :: p.data] := by
        unfold generatePhoneVariations
        rw [hraw, dedupSeen_eq_self _ _ hnd (by simp)]
      have hgen : generatePhoneVariations p = [p, "+" ++ p] := by
        rw [hgen0]
        simp only [List.map]
        rw [mkPlusL, string_mk_data]
      refine ⟨fun hA2 => absurd hA2 hA, fun hB2 => absurd hB2 hB, fun _ _ => hgen, ?_⟩
      rw [hgen0]
      exact List.Nodup.map hinj hnd

theorem c6_variation_shapes_witness :
    generatePhoneVariations "555195357522" =
      ["555195357522", "+555195357522", "5551995357522", "+5551995357522"] := by
  have h := (c6_variation_shapes "555195357522").1 (by constructor <;> decide)
  rw [h.1]
  decide

/-- Claim C6, counterexample: the input "55abcdefghij" has length 12 and starts
with "55" but is not a 12-digit string, so under the claim it is "every other
input" and should map to exactly [p, "+"+p]; the code still inserts the ninth
digit and returns four variations. -/
theorem c6_counterexample :
    (¬ ∀ c ∈ "55abcdefghij".data, c.isDigit) ∧
    generatePhoneVariations "55abcdefghij" =
      ["55abcdefghij", "+55abcdefghij", "55ab9cdefghij", "+55ab9cdefghij"] ∧
    generatePhoneVariations "55abcdefghij" ≠ ["55abcdefghij", "+55abcdefghij"] :=
  ⟨by decide, by decide, by decide⟩

theorem probeLoop_first (store : String → Probe) :
    ∀ (l : List String) (i : Nat) (hi : i < l.length) (d : List (String × Value)),
      store (l.get ⟨i, hi⟩) = .found d →
      (∀ (j : Nat) (hj : j < l.length), j < i → ∀ d2, store (l.get ⟨j, hj⟩) ≠ .found d2) →
      probeLoop store l = some (d, l.get ⟨i, hi⟩) := by
  intro l
  induction l with
  | nil =>
    intro i hi
    exact absurd hi (by simp)
  | cons v rest ih =>
    intro i hi d hfound hbefore
    cases i with
    | zero =>
      have hv : store v = .found d := hfound
      show probeLoop store (v :: rest) = some (d, v)
      simp only [probeLoop, hv]
    | succ k =>
      have hik : k < rest.length := by
        have : k + 1 < rest.length + 1 := by simpa using hi
        omega
      have hfound2 : store (rest.get ⟨k, hik⟩) = .found d := hfound
      have hv : ∀ d2, store v ≠ .found d2 := fun d2 => hbefore 0 (by simp) (by omega) d2
      have hshift : ∀ (j : Nat) (hj : j < rest.length), j < k →
          ∀ d2, store (rest.get ⟨j, hj⟩) ≠ .found d2 :=
        fun j hj hjk d2 => hbefore (j + 1) (by simp; omega) (by omega) d2
      have hrec := ih k hik d hfound2 hshift
      have hres : probeLoop store (v :: rest) = probeLoop store rest := by
        simp only [probeLoop]
        cases hsv : store v with
        | found d2 => exact absurd hsv (hv d2)
        | missing => rfl
        | err => rfl
      rw [hres, hrec]
      rfl

theorem probeLoop_none (store : String → Probe) (l : List String)
    (h : ∀ v ∈ l, ∀ d, store v ≠ .found d) : probeLoop store l = none := by
  induction l with
  | nil => rfl
  | cons v rest ih =>
    simp only [probeLoop]
    cases hsv : store v with
    | found d => exact absurd hsv (h v (List.mem_cons_self _ _) d)
    | missing => exact ih (fun w hw => h w (List.mem_cons_of_mem _ hw))
    | err => exact ih (fun w hw => h w (List.mem_cons_of_mem _ hw))

/-- Claim C5 (confirmed): contact resolution probes the per-tenant contact
collection with each entry of variations(normalize(raw_user_id)) in order and
returns the first existing record together with the key that matched; an
exception while probing one candidate is treated like a non-existing document
and the loop continues; if no candidate matches, resolution returns an absent
result and execute_business_routing ends without calling the agent. -/
theorem c5_contact_resolution (store : String → Probe) (uid : String) :
    (∀ (i : Nat) (hi : i < (generatePhoneVariations (normalizePhone uid)).length)
       (d : List (String × Value)),
      store ((generatePhoneVariations (normalizePhone uid)).get ⟨i, hi⟩) = .found d →
      (∀ (j : Nat) (hj : j < (generatePhoneVariations (normalizePhone uid)).length), j < i →
        ∀ d2, store ((generatePhoneVariations (normalizePhone uid)).get ⟨j, hj⟩) ≠ .found d2) →
      findContactByPhone store uid =
        some (d, (generatePhoneVariations (normalizePhone uid)).get ⟨i, hi⟩)) ∧
    ((∀ v ∈ generatePhoneVariations (normalizePhone uid), ∀ d, store v ≠ .found d) →
      findContactByPhone store uid = none) ∧
    (∀ (env : RoutingEnv) (tid cid : String), env.contactStore tid = store →
      findContactByPhone store uid = none →
      executeBusinessRouting env tid uid cid = .noAgentCall) :=
  ⟨fun i hi d h1 h2 => probeLoop_first store _ i hi d h1 h2,
   fun h => probeLoop_none store _ h,
   fun env tid cid hst hnone => by
     unfold executeBusinessRouting
     rw [hst, hnone]⟩

theorem c5_contact_resolution_witness :
    executeBusinessRouting
      ⟨fun _ _ => Probe.missing, fun _ => none, false⟩ "t1" "5511999990000" "ch" =
      RoutingOutcome.noAgentCall := by
  have hnone := (c5_contact_resolution (fun _ => Probe.missing) "5511999990000").2.1
    (fun v hv d => by simp)
  exact (c5_contact_resolution (fun _ => Probe.missing) "5511999990000").2.2
    ⟨fun _ _ => Probe.missing, fun _ => none, false⟩ "t1" "ch" rfl hnone

/-! ## Key-equality and dictionary lemmas for the authorization table -/

/-- Normal form used to show that `pyEq` is an equivalence on keys. -/
def keyNorm : Value → Nat × Int × String
  | .vnull => (0, 0, "")
  | .vbool b => (1, if b then 1 else 0, "")
  | .vint n => (1, n, "")
  | .vstr s => (2, 0, s)
  | .vlist xs => (3, 0, jsonDumps (.vlist xs))
  | .vdict xs => (4, 0, jsonDumps (.vdict xs))

theorem pyEq_iff_keyNorm (a b : Value) : pyEq a b = true ↔ keyNorm a = keyNorm b := by
  cases a <;> cases b <;> simp [pyEq, keyNorm]
  case vbool.vbool x y => revert x y; decide

theorem pyEq_refl (v : Value) : pyEq v v = true :=
  (pyEq_iff_keyNorm v v).mpr rfl

theorem pyEq_symm (a b : Value) (h : pyEq a b = true) : pyEq b a = true :=
  (pyEq_iff_keyNorm b a).mpr ((pyEq_iff_keyNorm a b).mp h).symm

theorem pyEq_trans (a b c : Value) (h1 : pyEq a b = true) (h2 : pyEq b c = true) :
    pyEq a c = true :=
  (pyEq_iff_keyNorm a c).mpr (((pyEq_iff_keyNorm a b).mp h1).trans ((pyEq_iff_keyNorm b c).mp h2))

theorem pyEq_vstr_inv (x : Value) (s : String) (h : pyEq x (.vstr s) = true) : x = .vstr s := by
  cases x <;> simp [pyEq] at h
  rw [h]

theorem pyEq_vstr_iff (a b : String) : pyEq (.vstr a) (.vstr b) = true ↔ a = b := by
  simp [pyEq]

theorem dget_dinsert_eqk (d : List (Value × RagStoreTarget)) (k : Value) (v : RagStoreTarget)
    (k2 : Value) (hk : pyEq k k2 = true) : dget (dinsert d k v) k2 = some v := by
  induction d with
  | nil => simp [dinsert, dget, hk]
  | cons kv rest ih =>
    obtain ⟨k0, v0⟩ := kv
    by_cases h0 : pyEq k0 k = true
    · simp only [dinsert, if_pos h0, dget]
      rw [if_pos (pyEq_trans k0 k k2 h0 hk)]
    · simp only [dinsert, if_neg h0, dget]
      have h02 : ¬ pyEq k0 k2 = true := fun hc => h0 (pyEq_trans k0 k2 k hc (pyEq_symm k k2 hk))
      rw [if_neg h02]
      exact ih

theorem dget_dinsert_nek (d : List (Value × RagStoreTarget)) (k : Value) (v : RagStoreTarget)
    (k2 : Value) (hk : ¬ pyEq k k2 = true) : dget (dinsert d k v) k2 = dget d k2 := by
  induction d with
  | nil =>
    have : ¬ pyEq k k2 = true := hk
    simp [dinsert, dget, this]
  | cons kv rest ih =>
    obtain ⟨k0, v0⟩ := kv
    by_cases h0 : pyEq k0 k = true
    · simp only [dinsert, if_pos h0, dget]
      have h02 : ¬ pyEq k0 k2 = true := fun hc => hk (pyEq_trans k k0 k2 (pyEq_symm k0 k h0) hc)
      rw [if_neg h02, if_neg h02]
    · simp only [dinsert, if_neg h0, dget]
      by_cases h02 : pyEq k0 k2 = true
      · rw [if_pos h02, if_pos h02]
      · rw [if_neg h02, if_neg h02]
        exact ih

theorem dget_dinsert_some (d : List (Value × RagStoreTarget)) (k0 : Value) (v0 : RagStoreTarget)
    (k : Value) (w : RagStoreTarget) (h : dget d k = some w) :
    ∃ w2, dget (dinsert d k0 v0) k = some w2 := by
  by_cases hk : pyEq k0 k = true
  · exact ⟨v0, dget_dinsert_eqk d k0 v0 k hk⟩
  · exact ⟨w, by rw [dget_dinsert_nek d k0 v0 k hk]; exact h⟩

theorem dget_mem (d : List (Value × RagStoreTarget)) (k : Value) (w : RagStoreTarget)
    (h : dget d k = some w) : ∃ k2, (k2, w) ∈ d := by
  induction d with
  | nil => simp [dget] at h
  | cons kv rest ih =>
    obtain ⟨k0, v0⟩ := kv
    by_cases h0 : pyEq k0 k = true
    · simp only [dget, if_pos h0] at h
      exact ⟨k0, by simp [← Option.some.inj h]⟩
    · simp only [dget, if_neg h0] at h
      obtain ⟨k2, hk2⟩ := ih h
      exact ⟨k2, List.mem_cons_of_mem _ hk2⟩

theorem dget_some_of_mem (d : List (Value × RagStoreTarget)) (k : Value) (w : RagStoreTarget)
    (h : (k, w) ∈ d) : ∃ w2, dget d k = some w2 := by
  induction d with
  | nil => cases h
  | cons kv rest ih =>
    obtain ⟨k0, v0⟩ := kv
    by_cases h0 : pyEq k0 k = true
    · exact ⟨v0, by simp [dget, if_pos h0]⟩
    · rcases List.mem_cons.mp h with heq | hmem
      · have : k0 = k := (congrArg Prod.fst heq).symm
        exact absurd (this ▸ pyEq_refl k0) h0
      · obtain ⟨w2, hw2⟩ := ih hmem
        exact ⟨w2, by simp [dget, if_neg h0]; exact hw2⟩

theorem mem_dinsert_ne (d : List (Value × RagStoreTarget)) (k0 : Value) (v0 : RagStoreTarget)
    (k : Value) (w : RagStoreTarget) (hmem : (k, w) ∈ d) (hne : ¬ pyEq k0 k = true) :
    (k, w) ∈ dinsert d k0 v0 := by
  induction d with
  | nil => cases hmem
  | cons kv rest ih =>
    obtain ⟨k1, v1⟩ := kv
    by_cases h1 : pyEq k1 k0 = true
    · simp only [dinsert, if_pos h1]
      rcases List.mem_cons.mp hmem with heq | hmem2
      · have hk1 : k1 = k := (congrArg Prod.fst heq).symm
        exact absurd (hk1 ▸ (pyEq_symm k1 k0 h1)) hne
      · exact List.mem_cons_of_mem _ hmem2
    · simp only [dinsert, if_neg h1]
      rcases List.mem_cons.mp hmem with heq | hmem2
      · exact heq ▸ List.mem_cons_self _ _
      · exact List.mem_cons_of_mem _ (ih hmem2)

theorem mem_dinsert_self_vstr (d : List (Value × RagStoreTarget)) (n : String)
    (v : RagStoreTarget) : (Value.vstr n, v) ∈ dinsert d (.vstr n) v := by
  induction d with
  | nil => simp [dinsert]
  | cons kv rest ih =>
    obtain ⟨k0, v0⟩ := kv
    by_cases h0 : pyEq k0 (.vstr n) = true
    · simp only [dinsert, if_pos h0]
      rw [pyEq_vstr_inv k0 n h0]
      exact List.mem_cons_self _ _
    · simp only [dinsert, if_neg h0]
      exact List.mem_cons_of_mem _ ih

theorem dinsert_val_sub (d : List (Value × RagStoreTarget)) (k0 : Value) (v0 : RagStoreTarget)
    (k : Value) (w : RagStoreTarget) (h : (k, w) ∈ dinsert d k0 v0) :
    (∃ k2, (k2, w) ∈ d) ∨ w = v0 := by
  induction d with
  | nil =>
    simp [dinsert] at h
    exact Or.inr h.2
  | cons kv rest ih =>
    obtain ⟨k1, v1⟩ := kv
    by_cases h1 : pyEq k1 k0 = true
    · simp only [dinsert, if_pos h1] at h
      rcases List.mem_cons.mp h with heq | hmem
      · exact Or.inr (congrArg Prod.snd heq)
      · exact Or.inl ⟨k, by simp [hmem]⟩
    · simp only [dinsert, if_neg h1] at h
      rcases List.mem_cons.mp h with heq | hmem
      · refine Or.inl ⟨k1, ?_⟩
        have hw : w = v1 := congrArg Prod.snd heq
        rw [hw]
        exact List.mem_cons_self _ _
      · rcases ih hmem with ⟨k2, hk2⟩ | hv
        · exact Or.inl ⟨k2, List.mem_cons_of_mem _ hk2⟩
        · exact Or.inr hv

theorem dupdate_cons (d : List (Value × RagStoreTarget)) (kv : Value × RagStoreTarget)
    (rest : List (Value × RagStoreTarget)) :
    dupdate d (kv :: rest) = dupdate (dinsert d kv.1 kv.2) rest := rfl

theorem dget_dupdate_some (d : List (Value × RagStoreTarget))
    (ps : List (Value × RagStoreTarget)) (k : Value) (w : RagStoreTarget)
    (h : dget d k = some w) : ∃ w2, dget (dupdate d ps) k = some w2 := by
  induction ps generalizing d w with
  | nil => exact ⟨w, h⟩
  | cons kv rest ih =>
    rw [dupdate_cons]
    obtain ⟨w2, h2⟩ := dget_dinsert_some d kv.1 kv.2 k w h
    exact ih _ w2 h2

theorem dget_dupdate_mem (ps : List (Value × RagStoreTarget)) (k : Value) (v : RagStoreTarget)
    (hmem : (k, v) ∈ ps) : ∀ d, ∃ w, dget (dupdate d ps) k = some w := by
  induction ps with
  | nil => cases hmem
  | cons kv rest ih =>
    intro d
    rw [dupdate_cons]
    rcases List.mem_cons.mp hmem with heq | hmem2
    · obtain ⟨k1, v1⟩ := kv
      cases heq
      exact dget_dupdate_some _ rest k v (dget_dinsert_eqk d k v k (pyEq_refl k))
    · exact ih hmem2 _

theorem dupdate_val_sub (ps : List (Value × RagStoreTarget)) :
    ∀ (d : List (Value × RagStoreTarget)) (k : Value) (w : RagStoreTarget),
      (k, w) ∈ dupdate d ps → (∃ k2, (k2, w) ∈ d) ∨ (∃ k2, (k2, w) ∈ ps) := by
  induction ps with
  | nil => exact fun d k w h => Or.inl ⟨k, h⟩
  | cons kv rest ih =>
    intro d k w h
    rw [dupdate_cons] at h
    rcases ih _ k w h with ⟨k2, hk2⟩ | ⟨k2, hk2⟩
    · rcases dinsert_val_sub d kv.1 kv.2 k2 w hk2 with ⟨k3, hk3⟩ | hv
      · exact Or.inl ⟨k3, hk3⟩
      · exact Or.inr ⟨kv.1, by simp [hv]⟩
    · exact Or.inr ⟨k2, List.mem_cons_of_mem _ hk2⟩

theorem sii_preserved (vals : List RagStoreTarget) :
    ∀ (d d2 : List (Value × RagStoreTarget)), storeIdIndexed d vals = some d2 →
      ∀ (k : Value) (w : RagStoreTarget), dget d k = some w → ∃ w2, dget d2 k = some w2 := by
  induction vals with
  | nil =>
    intro d d2 h k w hw
    simp only [storeIdIndexed] at h
    exact ⟨w, Option.some.inj h ▸ hw⟩
  | cons t rest ih =>
    intro d d2 h k w hw
    simp only [storeIdIndexed] at h
    by_cases hh : hashable t.data_store_id = true
    · rw [if_pos hh] at h
      obtain ⟨w2, hw2⟩ := dget_dinsert_some d t.data_store_id t k w hw
      exact ih _ _ h k w2 hw2
    · rw [if_neg hh] at h
      exact absurd h (by simp)

theorem sii_untouched (vals : List RagStoreTarget) :
    ∀ (d d2 : List (Value × RagStoreTarget)), storeIdIndexed d vals = some d2 →
      ∀ k : Value, (∀ t ∈ vals, ¬ pyEq t.data_store_id k = true) → dget d2 k = dget d k := by
  induction vals with
  | nil =>
    intro d d2 h k _
    simp only [storeIdIndexed] at h
    rw [Option.some.inj h]
  | cons t rest ih =>
    intro d d2 h k hnone
    simp only [storeIdIndexed] at h
    by_cases hh : hashable t.data_store_id = true
    · rw [if_pos hh] at h
      have h1 := ih _ _ h k (fun t2 h2 => hnone t2 (List.mem_cons_of_mem _ h2))
      rw [h1, dget_dinsert_nek d t.data_store_id t k (hnone t (List.mem_cons_self _ _))]
    · rw [if_neg hh] at h
      exact absurd h (by simp)

theorem sii_lastMatch (vals : List RagStoreTarget) :
    ∀ (d d2 : List (Value × RagStoreTarget)), storeIdIndexed d vals = some d2 →
      ∀ k : Value, (∃ t ∈ vals, pyEq t.data_store_id k = true) →
      ∃ w, dget d2 k = some w ∧ pyEq w.data_store_id k = true := by
  induction vals with
  | nil =>
    rintro d d2 h k ⟨t, ht, _⟩
    cases ht
  | cons t rest ih =>
    rintro d d2 h k ⟨t2, ht2, hpe⟩
    simp only [storeIdIndexed] at h
    by_cases hh : hashable t.data_store_id = true
    · rw [if_pos hh] at h
      by_cases hrest : ∃ t3 ∈ rest, pyEq t3.data_store_id k = true
      · exact ih _ _ h k hrest
      · rcases List.mem_cons.mp ht2 with rfl | hmem
        · have h0 : dget (dinsert d t2.data_store_id t2) k = some t2 :=
            dget_dinsert_eqk _ _ _ _ hpe
          have hnone : ∀ t3 ∈ rest, ¬ pyEq t3.data_store_id k = true :=
            fun t3 h3 hc => hrest ⟨t3, h3, hc⟩
          have hu := sii_untouched rest _ _ h k hnone
          exact ⟨t2, by rw [hu]; exact h0, hpe⟩
        · exact absurd ⟨t2, hmem, hpe⟩ hrest
    · rw [if_neg hh] at h
      exact absurd h (by simp)

theorem sii_val_sub (vals : List RagStoreTarget) :
    ∀ (d d2 : List (Value × RagStoreTarget)), storeIdIndexed d vals = some d2 →
      ∀ (k : Value) (w : RagStoreTarget), (k, w) ∈ d2 →
        (∃ k2, (k2, w) ∈ d) ∨ w ∈ vals := by
  induction vals with
  | nil =>
    intro d d2 h k w hmem
    simp only [storeIdIndexed] at h
    exact Or.inl ⟨k, Option.some.inj h ▸ hmem⟩
  | cons t rest ih =>
    intro d d2 h k w hmem
    simp only [storeIdIndexed] at h
    by_cases hh : hashable t.data_store_id = true
    · rw [if_pos hh] at h
      rcases ih _ _ h k w hmem with ⟨k2, hk2⟩ | hv
      · rcases dinsert_val_sub d t.data_store_id t k2 w hk2 with ⟨k3, hk3⟩ | hv2
        · exact Or.inl ⟨k3, hk3⟩
        · exact Or.inr (hv2 ▸ List.mem_cons_self _ _)
      · exact Or.inr (List.mem_cons_of_mem _ hv)
    · rw [if_neg hh] at h
      exact absurd h (by simp)

/-! ## Extraction-table lemmas -/

theorem extractPB_vals_truthy (dl dp dc : Value) :
    ∀ (cfgs : List (String × Value)) (acc : List (Value × RagStoreTarget)),
      (∀ (k : Value) (w : RagStoreTarget), (k, w) ∈ acc → truthy w.data_store_id = true) →
      ∀ (k : Value) (w : RagStoreTarget), (k, w) ∈ extractPB dl dp dc acc cfgs →
        truthy w.data_store_id = true := by
  intro cfgs
  induction cfgs with
  | nil => exact fun acc hacc k w hmem => hacc k w hmem
  | cons entry rest ih =>
    intro acc hacc k w hmem
    obtain ⟨n0, v0⟩ := entry
    cases v0 with
    | vdict cfg =>
      by_cases htr : truthy (pbDsid cfg) = true
      · rw [extractPB, if_pos htr] at hmem
        refine ih _ ?_ k w hmem
        intro k2 w2 h2
        rcases dinsert_val_sub acc (.vstr n0) (mkPlaybookTarget dl dp dc cfg) k2 w2 h2 with
          ⟨k3, hk3⟩ | hv
        · exact hacc k3 w2 hk3
        · rw [hv]
          exact htr
      · rw [extractPB, if_neg htr] at hmem
        exact ih acc hacc k w hmem
    | vnull => exact ih acc hacc k w hmem
    | vbool b => exact ih acc hacc k w hmem
    | vint n => exact ih acc hacc k w hmem
    | vstr s => exact ih acc hacc k w hmem
    | vlist xs => exact ih acc hacc k w hmem

theorem extractRC_vals_truthy (dl dp dc : Value) :
    ∀ (cfgs : List (String × Value)) (acc : List (Value × RagStoreTarget)),
      (∀ (k : Value) (w : RagStoreTarget), (k, w) ∈ acc → truthy w.data_store_id = true) →
      ∀ (k : Value) (w : RagStoreTarget), (k, w) ∈ extractRC dl dp dc acc cfgs →
        truthy w.data_store_id = true := by
  intro cfgs
  induction cfgs with
  | nil => exact fun acc hacc k w hmem => hacc k w hmem
  | cons entry rest ih =>
    intro acc hacc k w hmem
    obtain ⟨n0, v0⟩ := entry
    cases v0 with
    | vdict cfg =>
      by_cases htr : truthy (rcDsid cfg) = true
      · rw [extractRC, if_pos htr] at hmem
        refine ih _ ?_ k w hmem
        intro k2 w2 h2
        rcases dinsert_val_sub acc (.vstr n0) (mkRagTarget dl dp dc cfg) k2 w2 h2 with
          ⟨k3, hk3⟩ | hv
        · exact hacc k3 w2 hk3
        · rw [hv]
          exact htr
      · rw [extractRC, if_neg htr] at hmem
        exact ih acc hacc k w hmem
    | vnull => exact ih acc hacc k w hmem
    | vbool b => exact ih acc hacc k w hmem
    | vint n => exact ih acc hacc k w hmem
    | vstr s => exact ih acc hacc k w hmem
    | vlist xs => exact ih acc hacc k w hmem

theorem extractPB_mem_keep (dl dp dc : Value) :
    ∀ (cfgs : List (String × Value)) (acc : List (Value × RagStoreTarget))
      (k : Value) (w : RagStoreTarget), (k, w) ∈ acc →
      (∀ n2, n2 ∈ cfgs.map Prod.fst → ¬ pyEq (Value.vstr n2) k = true) →
      (k, w) ∈ extractPB dl dp dc acc cfgs := by
  intro cfgs
  induction cfgs with
  | nil => exact fun acc k w hmem _ => hmem
  | cons entry rest ih =>
    intro acc k w hmem hkeys
    obtain ⟨n0, v0⟩ := entry
    have hrest : ∀ n2, n2 ∈ rest.map Prod.fst → ¬ pyEq (Value.vstr n2) k = true :=
      fun n2 h2 => hkeys n2 (by simp at h2 ⊢; exact Or.inr h2)
    cases v0 with
    | vdict cfg =>
      by_cases htr : truthy (pbDsid cfg) = true
      · rw [extractPB, if_pos htr]
        refine ih _ k w ?_ hrest
        exact mem_dinsert_ne acc _ _ k w hmem (hkeys n0 (by simp))
      · rw [extractPB, if_neg htr]
        exact ih acc k w hmem hrest
    | vnull => exact ih acc k w hmem hrest
    | vbool b => exact ih acc k w hmem hrest
    | vint n => exact ih acc k w hmem hrest
    | vstr s => exact ih acc k w hmem hrest
    | vlist xs => exact ih acc k w hmem hrest

theorem extractPB_target_mem (dl dp dc : Value) :
    ∀ (cfgs : List (String × Value)) (acc : List (Value × RagStoreTarget))
      (n : String) (cfg : List (String × Value)),
      (cfgs.map Prod.fst).Nodup → (n, Value.vdict cfg) ∈ cfgs →
      truthy (pbDsid cfg) = true →
      (Value.vstr n, mkPlaybookTarget dl dp dc cfg) ∈ extractPB dl dp dc acc cfgs := by
  intro cfgs
  induction cfgs with
  | nil => intro acc n cfg _ hmem; cases hmem
  | cons entry rest ih =>
    intro acc n cfg hnd hmem htr
    obtain ⟨n0, v0⟩ := entry
    rcases List.mem_cons.mp hmem with heq | hmem2
    · have hn : n0 = n := (congrArg Prod.fst heq).symm
      have hv : v0 = Value.vdict cfg := (congrArg Prod.snd heq).symm
      subst hn
      subst hv
      rw [extractPB, if_pos htr]
      have hnotin : n0 ∉ rest.map Prod.fst := by
        rw [List.map_cons] at hnd
        exact (List.nodup_cons.mp hnd).1
      refine extractPB_mem_keep dl dp dc rest _ _ _ (mem_dinsert_self_vstr acc n0 _) ?_
      intro n2 h2 hpe
      exact hnotin (((pyEq_vstr_iff n2 n0).mp hpe) ▸ h2)
    · have hnd2 : (rest.map Prod.fst).Nodup := by
        rw [List.map_cons] at hnd
        exact (List.nodup_cons.mp hnd).2
      cases v0 with
      | vdict cfg0 =>
        by_cases htr0 : truthy (pbDsid cfg0) = true
        · rw [extractPB, if_pos htr0]
          exact ih _ n cfg hnd2 hmem2 htr
        · rw [extractPB, if_neg htr0]
          exact ih acc n cfg hnd2 hmem2 htr
      | vnull => exact ih acc n cfg hnd2 hmem2 htr
      | vbool b => exact ih acc n cfg hnd2 hmem2 htr
      | vint n3 => exact ih acc n cfg hnd2 hmem2 htr
      | vstr s3 => exact ih acc n cfg hnd2 hmem2 htr
      | vlist xs => exact ih acc n cfg hnd2 hmem2 htr

theorem buildCtx_inv (dl dp dc : Value) (td : List (String × Value)) (ctx : ResolveCtx)
    (h : buildCtx dl dp dc td = some ctx) :
    fieldOrEmpty td "playbook_configs" = some ctx.pcfgs ∧
    fieldOrEmpty td "rag_configs" = some ctx.rcfgs ∧
    ctx.pt = extractTargetsFromPlaybooks dl dp dc ctx.pcfgs ∧
    ctx.rt = extractTargetsFromRagConfigs dl dp dc ctx.rcfgs ∧
    storeIdIndexed (dupdate (dupdate [] ctx.pt) ctx.rt)
      (ctx.pt.map Prod.snd ++ ctx.rt.map Prod.snd) = some ctx.allowed := by
  unfold buildCtx at h
  cases h1 : fieldOrEmpty td "playbook_configs" with
  | none => rw [h1] at h; cases h
  | some pcfgs =>
    cases h2 : fieldOrEmpty td "rag_configs" with
    | none => rw [h1, h2] at h; cases h
    | some rcfgs =>
      rw [h1, h2] at h
      dsimp only at h
      cases h3 : storeIdIndexed
          (dupdate (dupdate [] (extractTargetsFromPlaybooks dl dp dc pcfgs))
            (extractTargetsFromRagConfigs dl dp dc rcfgs))
          ((extractTargetsFromPlaybooks dl dp dc pcfgs).map Prod.snd ++
            (extractTargetsFromRagConfigs dl dp dc rcfgs).map Prod.snd) with
      | none => rw [h3] at h; cases h
      | some allowed =>
        rw [h3] at h
        cases Option.some.inj h
        exact ⟨rfl, rfl, rfl, rfl, h3⟩

theorem resolveWithCtx_explicit (ctx : ResolveCtx) (pn ri ei : Option String)
    (hg : given ei = true) :
    resolveWithCtx ctx pn ri ei =
      (match dget ctx.allowed (.vstr (oget ei)) with
       | some t => .ok t
       | none => .error .unauthorized) := by
  unfold resolveWithCtx
  rw [if_pos hg]

theorem resolveWithCtx_playbook (ctx : ResolveCtx) (pn ri ei : Option String)
    (he : given ei = false) (hp : given pn = true) :
    resolveWithCtx ctx pn ri ei =
      (match dget ctx.pt (.vstr (oget pn)) with
       | none => .error .notFound
       | some t =>
         match lookupS ctx.pcfgs (oget pn) with
         | none => .ok t
         | some cfgv =>
           if truthy cfgv then
             match cfgv with
             | .vdict cfg =>
               if pbStatusActive cfg then .ok t else .error .configurationError
             | _ => .error .pyError
           else .ok t) := by
  unfold resolveWithCtx
  rw [if_neg (by rw [he]; simp), if_pos hp]

theorem resolveWithCtx_alias (ctx : ResolveCtx) (pn ri ei : Option String)
    (he : given ei = false) (hp : given pn = false) (hr : given ri = true) :
    resolveWithCtx ctx pn ri ei =
      (match dget ctx.allowed (.vstr (oget ri)) with
       | some t => .ok t
       | none => .error .unauthorized) := by
  unfold resolveWithCtx
  rw [if_neg (by rw [he]; simp), if_neg (by rw [hp]; simp), if_pos hr]

theorem resolveWithCtx_noSelector (ctx : ResolveCtx) (pn ri ei : Option String)
    (he : given ei = false) (hp : given pn = false) (hr : given ri = false) :
    resolveWithCtx ctx pn ri ei = .error .configurationError := by
  unfold resolveWithCtx
  rw [if_neg (by rw [he]; simp), if_neg (by rw [hp]; simp), if_neg (by rw [hr]; simp)]

theorem resolveWithCtx_ok_mem (ctx : ResolveCtx) (pn ri : Option String) (t : RagStoreTarget)
    (h : resolveWithCtx ctx pn ri none = .ok t) :
    (∃ k, (k, t) ∈ ctx.pt) ∨ (∃ k, (k, t) ∈ ctx.allowed) := by
  by_cases hpn : given pn = true
  · rw [resolveWithCtx_playbook ctx pn ri none rfl hpn] at h
    cases hd : dget ctx.pt (.vstr (oget pn)) with
    | none => rw [hd] at h; cases h
    | some t0 =>
      rw [hd] at h
      dsimp only at h
      have ht : t0 = t := by
        cases hl : lookupS ctx.pcfgs (oget pn) with
        | none =>
          rw [hl] at h
          exact Except.ok.inj h
        | some cfgv =>
          rw [hl] at h
          dsimp only at h
          by_cases htr : truthy cfgv = true
          · rw [if_pos htr] at h
            cases cfgv with
            | vdict cfg =>
              dsimp only at h
              by_cases hact : pbStatusActive cfg = true
              · rw [if_pos hact] at h
                exact Except.ok.inj h
              · rw [if_neg hact] at h
                cases h
            | vnull => cases h
            | vbool b => cases h
            | vint n => cases h
            | vstr s => cases h
            | vlist xs => cases h
          · rw [if_neg htr] at h
            exact Except.ok.inj h
      obtain ⟨k2, hk2⟩ := dget_mem _ _ _ hd
      exact Or.inl ⟨k2, ht ▸ hk2⟩
  · by_cases hri : given ri = true
    · rw [resolveWithCtx_alias ctx pn ri none rfl (by simpa using hpn) hri] at h
      cases hd : dget ctx.allowed (.vstr (oget ri)) with
      | none => rw [hd] at h; cases h
      | some t0 =>
        rw [hd] at h
        obtain ⟨k2, hk2⟩ := dget_mem _ _ _ hd
        exact Or.inr ⟨k2, (Except.ok.inj h) ▸ hk2⟩
    · rw [resolveWithCtx_noSelector ctx pn ri none rfl (by simpa using hpn)
        (by simpa using hri)] at h
      cases h

theorem resolveStoreTarget_ctx (dl dp dc : Value) (td : List (String × Value))
    (ctx : ResolveCtx) (pn ri ei : Option String) (hctx : buildCtx dl dp dc td = some ctx) :
    resolveStoreTarget dl dp dc (some td) pn ri ei = resolveWithCtx ctx pn ri ei := by
  unfold resolveStoreTarget
  dsimp only
  rw [hctx]

/-- Claim C3 (confirmed): resolve_store_target obeys the exact selector
precedence.  (1) A non-empty explicit store id is looked up in the unified
authorization table: a hit is returned, a miss fails Unauthorized.  (2)
Otherwise a non-empty playbook name must be a key of the playbook table
(NotFound otherwise); the source playbook entry's status (default truthy when
the key is absent) must coerce to active (ConfigurationError otherwise), and
the playbook's target is returned.  (3) Otherwise a non-empty alias is looked
up in the authorization table: a hit is returned, a miss fails Unauthorized.
(4) With no selector the call fails ConfigurationError.  The hypotheses state
that the tenant document exists and its two config fields are
dictionaries-or-absent with hashable store ids (the tables build without a
Python exception). -/
theorem c3_resolution_precedence (dl dp dc : Value) (td : List (String × Value))
    (ctx : ResolveCtx) (hctx : buildCtx dl dp dc td = some ctx) (pn ri ei : Option String) :
    (∀ s, ei = some s → s ≠ "" →
      (∀ t, dget ctx.allowed (.vstr s) = some t →
        resolveStoreTarget dl dp dc (some td) pn ri ei = .ok t) ∧
      (dget ctx.allowed (.vstr s) = none →
        resolveStoreTarget dl dp dc (some td) pn ri ei = .error .unauthorized)) ∧
    (given ei = false → ∀ n, pn = some n → n ≠ "" →
      (dget ctx.pt (.vstr n) = none →
        resolveStoreTarget dl dp dc (some td) pn ri ei = .error .notFound) ∧
      (∀ t, dget ctx.pt (.vstr n) = some t →
        (∀ cfg, lookupS ctx.pcfgs n = some (.vdict cfg) →
          (pbStatusActive cfg = false →
            resolveStoreTarget dl dp dc (some td) pn ri ei = .error .configurationError) ∧
          (pbStatusActive cfg = true →
            resolveStoreTarget dl dp dc (some td) pn ri ei = .ok t)) ∧
        (lookupS ctx.pcfgs n = none →
          resolveStoreTarget dl dp dc (some td) pn ri ei = .ok t))) ∧
    (given ei = false → given pn = false → ∀ a, ri = some a → a ≠ "" →
      (∀ t, dget ctx.allowed (.vstr a) = some t →
        resolveStoreTarget dl dp dc (some td) pn ri ei = .ok t) ∧
      (dget ctx.allowed (.vstr a) = none →
        resolveStoreTarget dl dp dc (some td) pn ri ei = .error .unauthorized)) ∧
    (given ei = false → given pn = false → given ri = false →
      resolveStoreTarget dl dp dc (some td) pn ri ei = .error .configurationError) := by
  refine ⟨?_, ?_, ?_, ?_⟩
  · intro s hei hs
    subst hei
    have hg : given (some s) = true := by simp [given, hs]
    constructor
    · intro t hdget
      rw [resolveStoreTarget_ctx dl dp dc td ctx pn ri (some s) hctx,
        resolveWithCtx_explicit ctx pn ri (some s) hg]
      dsimp only [oget]
      rw [hdget]
    · intro hdget
      rw [resolveStoreTarget_ctx dl dp dc td ctx pn ri (some s) hctx,
        resolveWithCtx_explicit ctx pn ri (some s) hg]
      dsimp only [oget]
      rw [hdget]
  · intro hei n hpn hn
    subst hpn
    have hgp : given (some n) = true := by simp [given, hn]
    constructor
    · intro hdget
      rw [resolveStoreTarget_ctx dl dp dc td ctx (some n) ri ei hctx,
        resolveWithCtx_playbook ctx (some n) ri ei hei hgp]
      dsimp only [oget]
      rw [hdget]
    · intro t hdget
      constructor
      · intro cfg hcfg
        constructor
        · intro hinact
          rw [resolveStoreTarget_ctx dl dp dc td ctx (some n) ri ei hctx,
            resolveWithCtx_playbook ctx (some n) ri ei hei hgp]
          dsimp only [oget]
          rw [hdget]
          dsimp only
          rw [hcfg]
          dsimp only
          by_cases htr : truthy (.vdict cfg) = true
          · rw [if_pos htr]
            rw [if_neg (by rw [hinact]; simp)]
          · exfalso
            have hnil : cfg = [] := by
              cases cfg with
              | nil => rfl
              | cons a b => simp [truthy] at htr
            rw [hnil] at hinact
            exact absurd hinact (by decide)
        · intro hact
          rw [resolveStoreTarget_ctx dl dp dc td ctx (some n) ri ei hctx,
            resolveWithCtx_playbook ctx (some n) ri ei hei hgp]
          dsimp only [oget]
          rw [hdget]
          dsimp only
          rw [hcfg]
          dsimp only
          by_cases htr : truthy (.vdict cfg) = true
          · rw [if_pos htr]
            rw [if_pos hact]
          · rw [if_neg htr]
      · intro hnone
        rw [resolveStoreTarget_ctx dl dp dc td ctx (some n) ri ei hctx,
          resolveWithCtx_playbook ctx (some n) ri ei hei hgp]
        dsimp only [oget]
        rw [hdget]
        dsimp only
        rw [hnone]
  · intro hei hpn a hri ha
    subst hri
    have hg : given (some a) = true := by simp [given, ha]
    constructor
    · intro t hdget
      rw [resolveStoreTarget_ctx dl dp dc td ctx pn (some a) ei hctx,
        resolveWithCtx_alias ctx pn (some a) ei hei hpn hg]
      dsimp only [oget]
      rw [hdget]
    · intro hdget
      rw [resolveStoreTarget_ctx dl dp dc td ctx pn (some a) ei hctx,
        resolveWithCtx_alias ctx pn (some a) ei hei hpn hg]
      dsimp only [oget]
      rw [hdget]
  · intro hei hpn hri
    rw [resolveStoreTarget_ctx dl dp dc td ctx pn ri ei hctx,
      resolveWithCtx_noSelector ctx pn ri ei hei hpn hri]

theorem c3_resolution_precedence_witness :
    resolveStoreTarget (.vstr "global") (.vstr "proj") (.vstr "default_collection")
      (some [("rag_configs", .vdict [("default", .vdict [("data_store_id", .vstr "dsX"),
        ("location", .vstr "us")])])]) none none (some "unknown") =
      .error .unauthorized := by
  have h := (c3_resolution_precedence (.vstr "global") (.vstr "proj")
    (.vstr "default_collection")
    [("rag_configs", .vdict [("default", .vdict [("data_store_id", .vstr "dsX"),
      ("location", .vstr "us")])])]
    ⟨[], [("default", .vdict [("data_store_id", .vstr "dsX"), ("location", .vstr "us")])],
     [],
     [(.vstr "default", ⟨.vstr "dsX", .vstr "us", .vstr "proj", .vstr "default_collection"⟩)],
     [(.vstr "default", ⟨.vstr "dsX", .vstr "us", .vstr "proj", .vstr "default_collection"⟩),
      (.vstr "dsX", ⟨.vstr "dsX", .vstr "us", .vstr "proj", .vstr "default_collection"⟩)]⟩
    rfl none none (some "unknown")).1
  exact (h "unknown" rfl (by decide)).2 rfl

/-- Claim C4 (corrected): every target returned via a playbook name or an
alias is reachable by its own raw store id — resolving again with that id (a
string) succeeds — but the returned target is only guaranteed to carry the
same data_store_id, not to be the same target: the store-id key is written by
a last-writer-wins loop, so when a playbook target and an alias target share
one store id, the alias target wins the id slot. -/
theorem c4_reachable_by_id (dl dp dc : Value) (td : List (String × Value))
    (pn ri : Option String) (t : RagStoreTarget) (s : String)
    (hres : resolveStoreTarget dl dp dc (some td) pn ri none = .ok t)
    (hid : t.data_store_id = .vstr s) :
    ∃ t2, resolveStoreTarget dl dp dc (some td) none none (some s) = .ok t2 ∧
      t2.data_store_id = .vstr s := by
  cases hb : buildCtx dl dp dc td with
  | none =>
    unfold resolveStoreTarget at hres
    dsimp only at hres
    rw [hb] at hres
    cases hres
  | some ctx =>
    rw [resolveStoreTarget_ctx dl dp dc td ctx pn ri none hb] at hres
    obtain ⟨hp1, hp2, hpt, hrt, hsii⟩ := buildCtx_inv dl dp dc td ctx hb
    have hmemvals : t ∈ ctx.pt.map Prod.snd ++ ctx.rt.map Prod.snd := by
      rcases resolveWithCtx_ok_mem ctx pn ri t hres with ⟨k, hk⟩ | ⟨k, hk⟩
      · exact List.mem_append_left _ (List.mem_map.mpr ⟨(k, t), hk, rfl⟩)
      · rcases sii_val_sub _ _ _ hsii k t hk with ⟨k2, hk2⟩ | hv
        · rcases dupdate_val_sub ctx.rt _ k2 t hk2 with ⟨k3, hk3⟩ | ⟨k3, hk3⟩
          · rcases dupdate_val_sub ctx.pt _ k3 t hk3 with ⟨k4, hk4⟩ | ⟨k4, hk4⟩
            · cases hk4
            · exact List.mem_append_left _ (List.mem_map.mpr ⟨(k4, t), hk4, rfl⟩)
          · exact List.mem_append_right _ (List.mem_map.mpr ⟨(k3, t), hk3, rfl⟩)
        · exact hv
    have htruthy : truthy t.data_store_id = true := by
      rcases List.mem_append.mp hmemvals with hm | hm
      · obtain ⟨⟨k, t2⟩, hmem, heq⟩ := List.mem_map.mp hm
        have ht2 : t2 = t := heq
        subst ht2
        rw [hpt] at hmem
        exact extractPB_vals_truthy dl dp dc ctx.pcfgs []
          (fun _ _ h => absurd h (List.not_mem_nil _)) k t2 hmem
      · obtain ⟨⟨k, t2⟩, hmem, heq⟩ := List.mem_map.mp hm
        have ht2 : t2 = t := heq
        subst ht2
        rw [hrt] at hmem
        exact extractRC_vals_truthy dl dp dc ctx.rcfgs []
          (fun _ _ h => absurd h (List.not_mem_nil _)) k t2 hmem
    have hs : s ≠ "" := by
      rw [hid] at htruthy
      simpa [truthy] using htruthy
    have hg : given (some s) = true := by simp [given, hs]
    obtain ⟨w, hw, hwid⟩ := sii_lastMatch _ _ _ hsii (.vstr s)
      ⟨t, hmemvals, by rw [hid]; exact pyEq_refl _⟩
    refine ⟨w, ?_, pyEq_vstr_inv _ _ hwid⟩
    rw [resolveStoreTarget_ctx dl dp dc td ctx none none (some s) hb,
      resolveWithCtx_explicit ctx none none (some s) hg]
    dsimp only [oget]
    rw [hw]

theorem c4_reachable_by_id_witness :
    ∃ t2, resolveStoreTarget (.vstr "global") (.vstr "proj") (.vstr "default_collection")
      (some [("rag_configs", .vdict [("default", .vdict [("data_store_id", .vstr "dsX"),
        ("location", .vstr "us")])])]) none none (some "dsX") = .ok t2 ∧
      t2.data_store_id = .vstr "dsX" :=
  c4_reachable_by_id (.vstr "global") (.vstr "proj") (.vstr "default_collection")
    [("rag_configs", .vdict [("default", .vdict [("data_store_id", .vstr "dsX"),
      ("location", .vstr "us")])])]
    none (some "default")
    ⟨.vstr "dsX", .vstr "us", .vstr "proj", .vstr "default_collection"⟩ "dsX" rfl rfl

/-- Claim C4, counterexample: tenant with playbook "p" (rag_id "ds1",
location "us") and alias "a" (data_store_id "ds1", location "eu").  Resolving
by playbook name returns the us target, but resolving by the returned
target's own store id "ds1" returns the eu target — reachable, but not "the
same target" as the claim states. -/
theorem c4_counterexample :
    resolveStoreTarget (.vstr "global") (.vstr "proj") (.vstr "default_collection")
      (some [("playbook_configs", .vdict [("p", .vdict [("rag_id", .vstr "ds1"),
          ("rag_location", .vstr "us")])]),
        ("rag_configs", .vdict [("a", .vdict [("data_store_id", .vstr "ds1"),
          ("location", .vstr "eu")])])])
      (some "p") none none =
      .ok ⟨.vstr "ds1", .vstr "us", .vstr "proj", .vstr "default_collection"⟩ ∧
    resolveStoreTarget (.vstr "global") (.vstr "proj") (.vstr "default_collection")
      (some [("playbook_configs", .vdict [("p", .vdict [("rag_id", .vstr "ds1"),
          ("rag_location", .vstr "us")])]),
        ("rag_configs", .vdict [("a", .vdict [("data_store_id", .vstr "ds1"),
          ("location", .vstr "eu")])])])
      none none (some "ds1") =
      .ok ⟨.vstr "ds1", .vstr "eu", .vstr "proj", .vstr "default_collection"⟩ ∧
    (⟨.vstr "ds1", .vstr "us", .vstr "proj", .vstr "default_collection"⟩ : RagStoreTarget) ≠
      ⟨.vstr "ds1", .vstr "eu", .vstr "proj", .vstr "default_collection"⟩ :=
  ⟨rfl, rfl, fun h =>
    absurd (Value.vstr.inj (congrArg RagStoreTarget.location h)) (by decide)⟩

/-- Claim C10 (corrected): the playbook activation check is enforced only on
the playbook-name selector path.  For a tenant whose playbook (with a
NON-EMPTY name) declares a string store id but whose status coerces to
inactive, resolution still succeeds both when the caller passes that raw id
as the explicit store id and when the caller passes the playbook's name as
the alias/rag_identifier selector.  (The claim fails as stated for a playbook
named "", whose name is falsy as a selector — see the counterexample — and
presupposes string store ids.) -/
theorem c10_activation_only_playbook_path (dl dp dc : Value) (td : List (String × Value))
    (ctx : ResolveCtx) (hctx : buildCtx dl dp dc td = some ctx)
    (hnd : (ctx.pcfgs.map Prod.fst).Nodup)
    (n : String) (hn : n ≠ "") (cfg : List (String × Value))
    (hcfg : (n, Value.vdict cfg) ∈ ctx.pcfgs)
    (s : String) (hids : pbDsid cfg = .vstr s) (hs : s ≠ "")
    (hinactive : pbStatusActive cfg = false) :
    (∃ t, resolveStoreTarget dl dp dc (some td) none none (some s) = .ok t ∧
      t.data_store_id = .vstr s) ∧
    (∃ t, resolveStoreTarget dl dp dc (some td) none (some n) none = .ok t) := by
  obtain ⟨hp1, hp2, hpt, hrt, hsii⟩ := buildCtx_inv dl dp dc td ctx hctx
  have htr : truthy (pbDsid cfg) = true := by
    rw [hids]
    simpa [truthy] using hs
  have hTmem : (Value.vstr n, mkPlaybookTarget dl dp dc cfg) ∈ ctx.pt := by
    rw [hpt]
    exact extractPB_target_mem dl dp dc ctx.pcfgs [] n cfg hnd hcfg htr
  constructor
  · have hTid : (mkPlaybookTarget dl dp dc cfg).data_store_id = .vstr s := hids
    have hmemvals : mkPlaybookTarget dl dp dc cfg ∈
        ctx.pt.map Prod.snd ++ ctx.rt.map Prod.snd :=
      List.mem_append_left _ (List.mem_map.mpr ⟨_, hTmem, rfl⟩)
    obtain ⟨w, hw, hwid⟩ := sii_lastMatch _ _ _ hsii (.vstr s)
      ⟨_, hmemvals, by rw [hTid]; exact pyEq_refl _⟩
    have hg : given (some s) = true := by simp [given, hs]
    refine ⟨w, ?_, pyEq_vstr_inv _ _ hwid⟩
    rw [resolveStoreTarget_ctx dl dp dc td ctx none none (some s) hctx,
      resolveWithCtx_explicit ctx none none (some s) hg]
    dsimp only [oget]
    rw [hw]
  · obtain ⟨w0, hw0⟩ := dget_dupdate_mem ctx.pt (.vstr n) _ hTmem []
    obtain ⟨w1, hw1⟩ := dget_dupdate_some _ ctx.rt (.vstr n) w0 hw0
    obtain ⟨w2, hw2⟩ := sii_preserved _ _ _ hsii (.vstr n) w1 hw1
    have hg : given (some n) = true := by simp [given, hn]
    refine ⟨w2, ?_⟩
    rw [resolveStoreTarget_ctx dl dp dc td ctx none (some n) none hctx,
      resolveWithCtx_alias ctx none (some n) none rfl rfl hg]
    dsimp only [oget]
    rw [hw2]

theorem c10_activation_only_playbook_path_witness :
    (∃ t, resolveStoreTarget (.vstr "global") (.vstr "proj") (.vstr "default_collection")
      (some [("playbook_configs", .vdict [("p", .vdict [("rag_id", .vstr "ds1"),
        ("status", .vstr "false")])])]) none none (some "ds1") = .ok t ∧
      t.data_store_id = .vstr "ds1") ∧
    (∃ t, resolveStoreTarget (.vstr "global") (.vstr "proj") (.vstr "default_collection")
      (some [("playbook_configs", .vdict [("p", .vdict [("rag_id", .vstr "ds1"),
        ("status", .vstr "false")])])]) none (some "p") none = .ok t) :=
  c10_activation_only_playbook_path (.vstr "global") (.vstr "proj") (.vstr "default_collection")
    [("playbook_configs", .vdict [("p", .vdict [("rag_id", .vstr "ds1"),
      ("status", .vstr "false")])])]
    ⟨[("p", .vdict [("rag_id", .vstr "ds1"), ("status", .vstr "false")])], [],
     [(.vstr "p", ⟨.vstr "ds1", .vstr "global", .vstr "proj", .vstr "default_collection"⟩)],
     [],
     [(.vstr "p", ⟨.vstr "ds1", .vstr "global", .vstr "proj", .vstr "default_collection"⟩),
      (.vstr "ds1", ⟨.vstr "ds1", .vstr "global", .vstr "proj", .vstr "default_collection"⟩)]⟩
    rfl (by decide) "p" (by decide)
    [("rag_id", .vstr "ds1"), ("status", .vstr "false")]
    (List.mem_cons_self _ _) "ds1" rfl (by decide) rfl

/-- Claim C10, counterexample: a playbook may be named "".  Its entry declares
store id "ds1" and an inactive status, but passing the playbook's name "" as
the alias/rag_identifier selector does not succeed: the empty string is falsy
as a selector, so the call falls through to the no-selector branch and fails
with ConfigurationError — against the claim's "resolution still succeeds". -/
theorem c10_counterexample :
    pbStatusActive [("rag_id", Value.vstr "ds1"), ("status", Value.vstr "false")] = false ∧
    resolveStoreTarget (.vstr "global") (.vstr "proj") (.vstr "default_collection")
      (some [("playbook_configs", .vdict [("", .vdict [("rag_id", .vstr "ds1"),
        ("status", .vstr "false")])])])
      none (some "") none = .error .configurationError := ⟨rfl, rfl⟩
